import Mathlib

/-!
Shallow embedding of the client-side spatial-clustering and map-layer
synchronization core of the tempo-air-quality frontend (the
`AirQualityClusterLayer` component and the HTTP service modules), together
with proofs of the behavioural properties stated in the specification.

Modelling conventions: JavaScript numbers are embedded as rationals (`ℚ`);
`Math.round` is Mathlib's `round` (both compute `⌊x + 1/2⌋`); `Math.floor`
is `Int.floor`; a JS `Map`/object used as a string-keyed dictionary is an
insertion-ordered association list; `undefined` is `Option.none`; a thrown
exception is the `Except.error` branch.
-/

namespace SpecProof

/-- One raw measurement record, field for field the `AirNowRecord` interface
of `airQualityService.ts`. -/
structure AirNowRecord where
  date : String
  time : String
  state : String
  city : String
  pollutant : String
  aqi : ℚ
  category : String
  latitude : ℚ
  longitude : ℚ
deriving DecidableEq, Repr

/-- One pollutant reading stored on a station (`{value, category}`). -/
structure PollutantEntry where
  value : ℚ
  category : String
deriving DecidableEq, Repr

/-- The `ProcessedStation` interface: the `pollutants` JS object is modelled
as an insertion-ordered association list from pollutant name to entry. -/
structure ProcessedStation where
  city : String
  state : String
  coordinates : ℚ × ℚ
  pollutants : List (String × PollutantEntry)
deriving DecidableEq, Repr

/-- The grouping key built in `transformFastAPIResponse`:
the template string `city,state` (comma-joined, no escaping). -/
def recordKey (r : AirNowRecord) : String :=
  r.city ++ "," ++ r.state

/-- JS object property assignment `station.pollutants[record.pollutant] = v`:
overwrite in place when the key is present, append otherwise. -/
def setPollutant (ps : List (String × PollutantEntry)) (k : String)
    (v : PollutantEntry) : List (String × PollutantEntry) :=
  if ps.any (fun p => decide (p.1 = k)) then
    ps.map (fun p => if p.1 = k then (p.1, v) else p)
  else
    ps ++ [(k, v)]

/-- The mutation performed on the station fetched from the map for the
current record (`station.pollutants[record.pollutant] = {value, category}`). -/
def addPollutant (s : ProcessedStation) (r : AirNowRecord) : ProcessedStation :=
  { s with pollutants := setPollutant s.pollutants r.pollutant ⟨r.aqi, r.category⟩ }

/-- The fresh station inserted when the key is not yet in the map
(`stationMap.set(key, {city, state, coordinates, pollutants: {}})`). -/
def freshStation (r : AirNowRecord) : ProcessedStation :=
  ⟨r.city, r.state, (r.longitude, r.latitude), []⟩

/-- One iteration of the `rawData.forEach` loop of `transformFastAPIResponse`:
insert a fresh station when the key is absent, then write the record's
pollutant entry onto the station stored under the key. -/
def insertRecord (m : List (String × ProcessedStation)) (r : AirNowRecord) :
    List (String × ProcessedStation) :=
  (if m.any (fun p => decide (p.1 = recordKey r)) then m
   else m ++ [(recordKey r, freshStation r)]).map
    (fun p => if p.1 = recordKey r then (p.1, addPollutant p.2 r) else p)

/-- The `ApiResponse` shape returned to the frontend (the wall-clock
`timestamp` field carries no information for the claims and is omitted). -/
structure ApiResponse where
  totalStations : ℕ
  stations : List ProcessedStation
deriving DecidableEq, Repr

/-- `AirQualityService.transformFastAPIResponse`: group records by the
`city,state` key string, keep the first record's coordinates per key, and
store/overwrite one pollutant entry per record. -/
def transformFastAPIResponse (records : List AirNowRecord) : ApiResponse :=
  let m := records.foldl insertRecord []
  ⟨m.length, m.map Prod.snd⟩

/-- Lookup of the station stored under a key (JS `stationMap.get(key)`). -/
def lookupStation (m : List (String × ProcessedStation)) (k : String) :
    Option ProcessedStation :=
  (m.find? (fun p => decide (p.1 = k))).map Prod.snd

/-- Lookup of one pollutant entry on a station (JS `station.pollutants[p]`). -/
def lookupPollutant (ps : List (String × PollutantEntry)) (k : String) :
    Option PollutantEntry :=
  (ps.find? (fun p => decide (p.1 = k))).map Prod.snd

/-- A bottom-level point as returned by `getLeaves`: its `properties.maxAQI`
may be absent (the code defaults it with `?? 0`). -/
structure Leaf where
  maxAQI : Option ℚ
deriving DecidableEq, Repr

/-- `calculateClusterAQI` of `AirQualityClusterLayer`: map leaves to their
`maxAQI ?? 0`, return `(0, 0)` for an empty list (the
`if (values.length === 0)` guard), otherwise the rounded arithmetic mean
(`Math.round(values.reduce((a,b) => a+b, 0) / values.length)`) and the
maximum (`Math.max(...values)`). -/
def calculateClusterAQI (leaves : List Leaf) : ℤ × ℚ :=
  let values := leaves.map (fun l => l.maxAQI.getD 0)
  match values with
  | [] => (0, 0)
  | v :: vs =>
      (round (((v :: vs).foldl (· + ·) 0) / ((v :: vs).length : ℚ)),
       vs.foldl max v)

/-- A viewport bounding box (`map.getBounds()` with its four edge
accessors `getWest/getSouth/getEast/getNorth`). -/
structure Bounds where
  west : ℚ
  south : ℚ
  east : ℚ
  north : ℚ
deriving DecidableEq, Repr

/-- The map state read inside `updateClusters`:
`map.getZoom()` and `map.getBounds()`. -/
structure Viewport where
  zoom : ℚ
  bounds : Bounds
deriving DecidableEq, Repr

/-- The `properties` bag of a `ClusterFeature` as returned by
`supercluster.getClusters`. -/
structure ClusterProps where
  cluster : Bool
  cluster_id : Option ℕ
  point_count : Option ℕ
  station : Option ProcessedStation
  maxAQI : Option ℚ
deriving DecidableEq, Repr

/-- A primitive returned by the index query: properties plus the point
geometry's `[lng, lat]` coordinates. -/
structure ClusterFeature where
  properties : ClusterProps
  coordinates : ℚ × ℚ
deriving DecidableEq, Repr

/-- A rendered on-map visual: the observable content of the markers built by
`createClusterMarker` and `createStationMarker` (the DOM styling carries no
behavioural information). -/
inductive Marker where
  | clusterMarker (coords : ℚ × ℚ) (pointCount : ℕ) (avgAQI : ℤ) (maxAQI : ℚ)
  | stationMarker (coords : ℚ × ℚ) (station : ProcessedStation)
deriving DecidableEq, Repr

/-- The body of the `clusters.forEach` loop in `updateClusters`: a cluster
primitive yields a cluster marker built from `calculateClusterAQI` over its
resolved leaves (`cluster_id!` is the code's non-null assertion, modelled by
`getD 0`); a non-cluster primitive yields a station marker when its
`station` property is present and nothing otherwise. -/
def renderOne (getLeaves : ℕ → List Leaf) (c : ClusterFeature) : List Marker :=
  if c.properties.cluster then
    let aqi := calculateClusterAQI (getLeaves (c.properties.cluster_id.getD 0))
    [Marker.clusterMarker c.coordinates (c.properties.point_count.getD 0) aqi.1 aqi.2]
  else
    match c.properties.station with
    | some s => [Marker.stationMarker c.coordinates s]
    | none => []

/-- The whole `clusters.forEach` loop: markers accumulate in `markersRef`
in iteration order. -/
def renderClusters (getLeaves : ℕ → List Leaf) (clusters : List ClusterFeature) :
    List Marker :=
  clusters.foldl (fun ms c => ms ++ renderOne getLeaves c) []

/-- The mutable state closed over by the update handlers: `lastZoom`,
`lastBounds` (both initially `undefined`) and `markersRef.current`. -/
structure LayerState where
  lastZoom : Option ℚ
  lastBounds : Option Bounds
  markers : List Marker
deriving DecidableEq, Repr

/-- The `boundsChanged` check of `updateClusters`: vacuously true when no
bounds were ever committed (`!lastBounds`), otherwise true when any edge
moved by strictly more than 0.005. -/
def boundsChangedB (lastBounds : Option Bounds) (bounds : Bounds) : Bool :=
  match lastBounds with
  | none => true
  | some lb =>
      decide (|bounds.west - lb.west| > 0.005) ||
      decide (|bounds.south - lb.south| > 0.005) ||
      decide (|bounds.east - lb.east| > 0.005) ||
      decide (|bounds.north - lb.north| > 0.005)

/-- The `zoomChanged` check of `updateClusters`:
`Math.abs(zoom - (lastZoom || 0)) > 0.05`. -/
def zoomChangedB (lastZoom : Option ℚ) (zoom : ℚ) : Bool :=
  decide (|zoom - lastZoom.getD 0| > 0.05)

/-- The snapped zoom passed to the index query:
`Math.floor(Math.floor(zoom * 2) / 2)`. -/
def snappedZoom (zoom : ℚ) : ℤ :=
  ⌊((⌊zoom * 2⌋ : ℚ) / 2)⌋

/-- The gated recompute function `updateClusters`: compare the current
viewport against the last-committed one, return untouched when neither the
bounds nor the zoom changed significantly; otherwise commit the new
zoom/bounds, clear the markers and rebuild them from
`getClusters(bbox, Math.floor(stableZoom))`.  The returned flag records
whether a recomputation was performed. -/
def updateClusters (getClusters : Bounds → ℤ → List ClusterFeature)
    (getLeaves : ℕ → List Leaf) (vp : Viewport) (st : LayerState) :
    LayerState × Bool :=
  if !(boundsChangedB st.lastBounds vp.bounds) &&
     !(zoomChangedB st.lastZoom vp.zoom) then (st, false)
  else
    ({ lastZoom := some vp.zoom, lastBounds := some vp.bounds,
       markers :=
         renderClusters getLeaves (getClusters vp.bounds (snappedZoom vp.zoom)) },
     true)

/-- A sequence of viewport changes fed one by one into the gated recompute,
counting how many recomputations were actually performed. -/
def runUpdates (getClusters : Bounds → ℤ → List ClusterFeature)
    (getLeaves : ℕ → List Leaf) (vps : List Viewport) (st : LayerState) :
    LayerState × ℕ :=
  vps.foldl
    (fun acc vp =>
      let r := updateClusters getClusters getLeaves vp acc.1
      (r.1, acc.2 + if r.2 then 1 else 0))
    (st, 0)

/-- The visibility effect (`useEffect` on `[map, visible]`): when the overlay
is hidden every marker is removed and the marker set becomes empty; when
visible the markers are left alone. -/
def visibilityEffect (visible : Bool) (markers : List Marker) : List Marker :=
  if !visible then [] else markers

/-- Mounting the cluster-update effect (`useEffect` on
`[map, onStationClick, stations.length, visible]`): when hidden the effect
returns before installing anything, so no recompute runs; when visible the
closure state `lastZoom`/`lastBounds` starts `undefined` and the effect ends
with one initial `updateClusters()` call.  The second component counts the
recomputations performed. -/
def clusterEffectMount (getClusters : Bounds → ℤ → List ClusterFeature)
    (getLeaves : ℕ → List Leaf) (visible : Bool) (vp : Viewport)
    (markers : List Marker) : LayerState × ℕ :=
  if !visible then (⟨none, none, markers⟩, 0)
  else
    let r := updateClusters getClusters getLeaves vp ⟨none, none, markers⟩
    (r.1, if r.2 then 1 else 0)

/-- Event-loop state for the trailing debounce: the map viewport current at
this instant, the pending settle-timer deadline (`updateTimeout`), and the
list of timer firings so far, each recorded as (fire time, viewport read by
`updateClusters` at that time). -/
def debStep (st : Viewport × Option ℚ × List (ℚ × Viewport))
    (ev : ℚ × Viewport) : Viewport × Option ℚ × List (ℚ × Viewport) :=
  let cur := st.1
  let pending := st.2.1
  let fires := st.2.2
  let flushed : Option ℚ × List (ℚ × Viewport) :=
    match pending with
    | some tf => if tf ≤ ev.1 then (none, fires ++ [(tf, cur)]) else (some tf, fires)
    | none => (none, fires)
  (ev.2, some (ev.1 + 50), flushed.2)

/-- A run of `moveend`/`zoomend` events, each handled by
`debouncedUpdateClusters` (`clearTimeout(updateTimeout);
updateTimeout = setTimeout(updateClusters, 50)`): a timer due before the
next event fires first, reading the then-current viewport; each handler
cancels any still-pending timer and schedules a fresh one 50ms out.  After
the last event the surviving timer fires.  Returns the list of timer
firings. -/
def debounceRun (vp0 : Viewport) (evs : List (ℚ × Viewport)) :
    List (ℚ × Viewport) :=
  let st := evs.foldl debStep (vp0, none, [])
  match st.2.1 with
  | some tf => st.2.2 ++ [(tf, st.1)]
  | none => st.2.2

/-- The `Supercluster` constructor options used by the layer
(`new Supercluster({radius: 50, maxZoom: 14, minZoom: 0, minPoints: 2})`). -/
structure ClusterOptions where
  radius : ℕ
  maxZoom : ℕ
  minZoom : ℕ
  minPoints : ℕ
deriving DecidableEq, Repr

/-- The concrete configuration from `AirQualityClusterLayer`. -/
def superclusterOptions : ClusterOptions :=
  { radius := 50, maxZoom := 14, minZoom := 0, minPoints := 2 }

/-- Whether two points lie within the cluster radius of each other
(squared Euclidean distance against squared radius, in shared units). -/
def withinRadius (r : ℚ) (a b : ℚ × ℚ) : Bool :=
  decide ((a.1 - b.1) ^ 2 + (a.2 - b.2) ^ 2 ≤ r ^ 2)

/-- A cluster primitive of the spec's data model: either an aggregated
Cluster with a member count or a SinglePoint. -/
inductive ClusterPrim where
  | Cluster (center : ℚ × ℚ) (count : ℕ)
  | SinglePoint (pt : ℚ × ℚ)
deriving DecidableEq, Repr

/-- Modelled from the spec: the `supercluster` library itself is an external
dependency whose code is not in the repository; only its configuration is.
Spec §4.1/§8 describe one zoom level's clustering pass as grouping the
points lying within the cluster radius of each other, forming a Cluster
only when at least `minPoints` points fall together and leaving every other
point as a SinglePoint.  We model this as a greedy sweep: the first point
gathers all remaining points within the radius; if the group reaches
`minPoints` it becomes one Cluster and its members are consumed, otherwise
the point stays a SinglePoint and the rest are processed unchanged. -/
def clusterPass (minPoints : ℕ) (r : ℚ) : List (ℚ × ℚ) → List ClusterPrim
  | [] => []
  | p :: rest =>
    let near := rest.filter (fun q => withinRadius r p q)
    if minPoints ≤ near.length + 1 then
      ClusterPrim.Cluster p (near.length + 1) ::
        clusterPass minPoints r (rest.filter (fun q => !(withinRadius r p q)))
    else
      ClusterPrim.SinglePoint p :: clusterPass minPoints r rest
termination_by l => l.length
decreasing_by
· exact Nat.lt_succ_of_le (List.length_filter_le _ _)
· exact Nat.lt_succ_of_le (Nat.le_refl _)

/-- The per-station derived ranking value computed inside the `features`
builder: `Math.max(...Object.values(station.pollutants).map(p => p.value))`,
with JS `Math.max` of an empty spread being `-Infinity` (`⊥`). -/
def stationMaxAQI (s : ProcessedStation) : WithBot ℚ :=
  (s.pollutants.map (fun p => p.2.value)).maximum

/-- The US-bounds filter applied before indexing
(`lng >= -180 && lng <= -65 && lat >= 18 && lat <= 72`). -/
def isInUS (s : ProcessedStation) : Bool :=
  decide (-180 ≤ s.coordinates.1) && decide (s.coordinates.1 ≤ -65) &&
  decide (18 ≤ s.coordinates.2) && decide (s.coordinates.2 ≤ 72)

/-- The world-range validation tested (and only logged) in the same builder:
`lng < -180 || lng > 180 || lat < -90 || lat > 90`. -/
def outOfWorldRange (s : ProcessedStation) : Bool :=
  decide (s.coordinates.1 < -180) || decide (s.coordinates.1 > 180) ||
  decide (s.coordinates.2 < -90) || decide (s.coordinates.2 > 90)

/-- An indexed GeoJSON feature as built by the `features` array: the station,
its post-filter index, and its derived ranking value (the `cluster: false`
tag is constant and omitted). -/
structure IndexedFeature where
  station : ProcessedStation
  index : ℕ
  maxAQI : WithBot ℚ
deriving DecidableEq, Repr

/-- The `features` builder of `AirQualityClusterLayer`: filter the stations
to the US bounds, then map each to a feature carrying its index and derived
ranking value.  These are the features loaded into the spatial index
(`clusterRef.current.load(features)`). -/
def features (stations : List ProcessedStation) : List IndexedFeature :=
  ((stations.filter isInUS).enum).map
    (fun p => ⟨p.2, p.1, stationMaxAQI p.2⟩)

/-- The uniform error envelope `{error, message}` of the backend. -/
structure ApiErrorEnv where
  error : String
  message : String
deriving DecidableEq, Repr

/-- A completed `fetch`: the HTTP status plus the parsed JSON body.  The
code casts the one body either to the payload type (2xx) or to the error
envelope (non-2xx), so the model carries both views of it. -/
structure FetchResult (P : Type) where
  status : ℕ
  payload : P
  envelope : ApiErrorEnv
deriving DecidableEq, Repr

/-- `response.ok`: status in the 2xx range. -/
def responseOk (status : ℕ) : Bool :=
  decide (200 ≤ status) && decide (status < 300)

/-- The thrown message `API Error: err.error - err.message`. -/
def apiErrorMessage (e : ApiErrorEnv) : String :=
  "API Error: " ++ e.error ++ " - " ++ e.message

/-- `AirQualityService.getAllStations`: parse the body, throw the envelope
message on non-2xx, otherwise return the transformed payload. -/
def getAllStations (resp : FetchResult (List AirNowRecord)) :
    Except String ApiResponse :=
  if !(responseOk resp.status) then .error (apiErrorMessage resp.envelope)
  else .ok (transformFastAPIResponse resp.payload)

/-- The `PrecipitationDataResponse` payload shape. -/
structure PrecipitationDataResponse where
  longitude : ℚ
  latitude : ℚ
  start_date : Option String
  end_date : Option String
  total_precipitation_mm : ℚ
  timestamp : Option String
deriving DecidableEq, Repr

/-- `PrecipitationService.getCurrentPrecipitationByLocation`: same envelope
discipline; on 2xx the parsed payload is returned unchanged.  The
`longitude`/`latitude` arguments only feed the query string. -/
def getCurrentPrecipitationByLocation (_lngArg _latArg : ℚ)
    (resp : FetchResult PrecipitationDataResponse) :
    Except String PrecipitationDataResponse :=
  if !(responseOk resp.status) then .error (apiErrorMessage resp.envelope)
  else .ok resp.payload

/-- One record of the fire-data endpoint (`FireDataRecord`). -/
structure FireDataRecord where
  latitude : ℚ
  longitude : ℚ
  brightness : ℚ
  scan : ℚ
  track : ℚ
  acq_date : String
  acq_time : String
  satellite : String
  confidence : String
  version : String
  bright_t31 : ℚ
  frp : ℚ
  daynight : String
deriving DecidableEq, Repr

/-- The `FireDataResponse` payload shape. -/
structure FireDataResponse where
  message : String
  count : ℕ
  data : List FireDataRecord
deriving DecidableEq, Repr

/-- `FireDataService.getRecentFireData`: same envelope discipline as the
precipitation service; on 2xx the parsed payload is returned unchanged. -/
def getRecentFireData (resp : FetchResult FireDataResponse) :
    Except String FireDataResponse :=
  if !(responseOk resp.status) then .error (apiErrorMessage resp.envelope)
  else .ok resp.payload

/-- One element of the humidity payload's `data` array. -/
structure HumidityPoint where
  longitude : ℚ
  latitude : ℚ
  relative_humidity : ℚ
  dew_point_celsius : ℚ
  temperature_celsius : ℚ
  timestamp : String
deriving DecidableEq, Repr

/-- The `HumidityDataResponse` payload: the untyped `metadata` bag carries
no behavioural information and is omitted; an absent (`undefined`) `data`
field and an empty array both fail the JS truthiness-and-length check, so
both are the empty list here. -/
structure HumidityDataResponse where
  data : List HumidityPoint
deriving DecidableEq, Repr

/-- `HumidityService.getCurrentHumidityByLocation`: the envelope message is
thrown on non-2xx, but on a 2xx response the function returns the FIRST
element of the payload's `data` array (`apiResponse.data[0]`), and throws
`No humidity data available` — an error without envelope fields — when the
array is empty. -/
def getCurrentHumidityByLocation (_lngArg _latArg : ℚ)
    (resp : FetchResult HumidityDataResponse) :
    Except String HumidityPoint :=
  if !(responseOk resp.status) then .error (apiErrorMessage resp.envelope)
  else
    match resp.payload.data with
    | p :: _ => .ok p
    | [] => .error "No humidity data available"

/-- One element of the temperature payload's `data` array. -/
structure TemperaturePoint where
  longitude : ℚ
  latitude : ℚ
  temperature : ℚ
  timestamp : String
deriving DecidableEq, Repr

/-- The `TemperatureDataResponse` payload (untyped `metadata` omitted, as
for humidity). -/
structure TemperatureDataResponse where
  data : List TemperaturePoint
deriving DecidableEq, Repr

/-- `TemperatureService.getCurrentTemperatureByLocation`: same shape as the
humidity fetch — envelope on non-2xx, `data[0]` on 2xx, and a non-envelope
`No temperature data available` throw on a 2xx empty array. -/
def getCurrentTemperatureByLocation (_lngArg _latArg : ℚ)
    (resp : FetchResult TemperatureDataResponse) :
    Except String TemperaturePoint :=
  if !(responseOk resp.status) then .error (apiErrorMessage resp.envelope)
  else
    match resp.payload.data with
    | p :: _ => .ok p
    | [] => .error "No temperature data available"

/-- One point of the WSTI heatmap payload. -/
structure WSTIPoint where
  latitude : ℚ
  longitude : ℚ
  threat_score : ℚ
  level : String
  color : String
  hcho : ℚ
  aerosol : ℚ
  no2 : ℚ
deriving DecidableEq, Repr

/-- The `WSTIResponse` payload shape. -/
structure WSTIResponse where
  heatmap_data : List WSTIPoint
  total_points : ℕ
  data_age_hours : ℚ
  search_range_hours : ℚ
deriving DecidableEq, Repr

/-- `WSTIService.getWSTIHeatmap`: on non-2xx it throws
`HTTP error! status: N` — built from the status code only, carrying none of
the envelope's fields (the body is not even read on that path); the
surrounding try/catch only logs and rethrows. -/
def getWSTIHeatmap (resp : FetchResult WSTIResponse) :
    Except String WSTIResponse :=
  if !(responseOk resp.status) then
    .error ("HTTP error! status: " ++ toString resp.status)
  else .ok resp.payload

/-- The `getWSTIStatus` payload shape. -/
structure WSTIStatus where
  status : String
  last_update : String
  data_available : Bool
deriving DecidableEq, Repr

/-- `WSTIService.getWSTIStatus`: identical control flow to
`getWSTIHeatmap`. -/
def getWSTIStatus (resp : FetchResult WSTIStatus) :
    Except String WSTIStatus :=
  if !(responseOk resp.status) then
    .error ("HTTP error! status: " ++ toString resp.status)
  else .ok resp.payload

/-! ## Helper lemmas -/

lemma foldl_add_eq (l : List ℚ) (a : ℚ) : l.foldl (· + ·) a = a + l.sum := by
  induction l generalizing a with
  | nil => simp
  | cons x xs ih =>
      simp only [List.foldl_cons, List.sum_cons, ih]
      ring

lemma foldl_max_le (l : List ℚ) (a : ℚ) : a ≤ l.foldl max a := by
  induction l generalizing a with
  | nil => simp
  | cons x xs ih => exact le_trans (le_max_left a x) (ih (max a x))

lemma mem_le_foldl_max (l : List ℚ) (b : ℚ) (hb : b ∈ l) :
    ∀ a, b ≤ l.foldl max a := by
  induction l with
  | nil => cases hb
  | cons x xs ih =>
      intro a
      rcases List.mem_cons.mp hb with h | h
      · subst h
        exact le_trans (le_max_right a b) (foldl_max_le xs _)
      · exact ih h (max a x)

lemma foldl_max_mem (l : List ℚ) (a : ℚ) : l.foldl max a = a ∨ l.foldl max a ∈ l := by
  induction l generalizing a with
  | nil => left; rfl
  | cons x xs ih =>
      simp only [List.foldl_cons]
      rcases ih (max a x) with h | h
      · rcases le_total a x with hax | hxa
        · right
          rw [h, max_eq_right hax]
          exact List.mem_cons_self x xs
        · left
          rw [h, max_eq_left hxa]
      · right
        exact List.mem_cons_of_mem x h

/-! ## C3: aggregate correctness of `calculateClusterAQI` -/

/-- C3.  For every cluster whose resolved leaves carry ranking values
v1..vn (n ≥ 1), `calculateClusterAQI` returns the arithmetic mean of the
values rounded to the nearest integer and their maximum (an element of the
list that dominates every value); in particular the leaves `[10, 20, 30]`
yield average 20 and max 30. -/
theorem claim_C3 (vs : List ℚ) (h : vs ≠ []) :
    (calculateClusterAQI (vs.map (fun v => ⟨some v⟩))).1
      = round (vs.sum / (vs.length : ℚ))
    ∧ (calculateClusterAQI (vs.map (fun v => ⟨some v⟩))).2 ∈ vs
    ∧ (∀ v ∈ vs, v ≤ (calculateClusterAQI (vs.map (fun v => ⟨some v⟩))).2)
    ∧ calculateClusterAQI [⟨some 10⟩, ⟨some 20⟩, ⟨some 30⟩] = (20, 30) := by
  obtain ⟨v, vs', rfl⟩ := List.exists_cons_of_ne_nil h
  have hmap : ((v :: vs').map (fun v => (⟨some v⟩ : Leaf))).map
      (fun l => l.maxAQI.getD 0) = v :: vs' := by
    simp [List.map_map, Function.comp_def]
  have hred : calculateClusterAQI ((v :: vs').map (fun v => ⟨some v⟩))
      = (round (((v :: vs').foldl (· + ·) 0) / ((v :: vs').length : ℚ)),
         vs'.foldl max v) := by
    unfold calculateClusterAQI
    rw [hmap]
  refine ⟨?_, ?_, ?_, ?_⟩
  · rw [hred, foldl_add_eq, zero_add]
  · rw [hred]
    rcases foldl_max_mem vs' v with h1 | h1
    · rw [h1]; exact List.mem_cons_self v vs'
    · exact List.mem_cons_of_mem v h1
  · intro w hw
    rw [hred]
    rcases List.mem_cons.mp hw with h1 | h1
    · subst h1; exact foldl_max_le vs' w
    · exact mem_le_foldl_max vs' w h1 v
  · refine Prod.ext ?_ ?_ <;> simp [calculateClusterAQI] <;> norm_num [round_eq]

/-- Witness for C3: the concrete leaf values `[10, 20, 30]`. -/
theorem claim_C3_witness :
    (calculateClusterAQI ([(10 : ℚ), 20, 30].map (fun v => ⟨some v⟩))).2 ∈
      [(10 : ℚ), 20, 30]
    ∧ ∀ v ∈ [(10 : ℚ), 20, 30],
        v ≤ (calculateClusterAQI ([(10 : ℚ), 20, 30].map (fun v => ⟨some v⟩))).2 :=
  ⟨(claim_C3 [10, 20, 30] (by simp)).2.1,
   (claim_C3 [10, 20, 30] (by simp)).2.2.1⟩

/-! ## C6: visibility toggle -/

/-- Recomputation from a freshly mounted closure (`lastZoom`/`lastBounds`
undefined) always passes the gate and commits the current viewport. -/
lemma updateClusters_fresh (gc : Bounds → ℤ → List ClusterFeature)
    (gl : ℕ → List Leaf) (vp : Viewport) (ms : List Marker) :
    updateClusters gc gl vp ⟨none, none, ms⟩ =
      ({ lastZoom := some vp.zoom, lastBounds := some vp.bounds,
         markers := renderClusters gl (gc vp.bounds (snappedZoom vp.zoom)) },
       true) := by
  simp [updateClusters, boundsChangedB]

/-- C6.  While the overlay's `visible` flag is false every rendered marker
is removed (the marker set is empty whatever it contained) and the update
effect performs zero recomputations; remounting with `visible = true`
performs exactly one recompute whose markers are the primitive set of the
current viewport. -/
theorem claim_C6 (gc : Bounds → ℤ → List ClusterFeature) (gl : ℕ → List Leaf)
    (vp : Viewport) (ms : List Marker) :
    visibilityEffect false ms = []
    ∧ clusterEffectMount gc gl false vp ms = (⟨none, none, ms⟩, 0)
    ∧ clusterEffectMount gc gl true vp ms =
        ({ lastZoom := some vp.zoom, lastBounds := some vp.bounds,
           markers := renderClusters gl (gc vp.bounds (snappedZoom vp.zoom)) },
         1) := by
  refine ⟨rfl, rfl, ?_⟩
  simp [clusterEffectMount, updateClusters_fresh gc gl vp ms]

/-! ## C8: error discipline of the service fetches -/

/-- Counterexample to C8 as stated: the humidity fetch throws on a 2xx
response whose `data` array is empty — and the thrown message carries no
envelope fields — so "throws if and only if the status is non-2xx" fails;
and the WSTI fetch's non-2xx error is built from the status code alone,
not from the envelope's `error`/`message` fields. -/
theorem claim_C8_counterexample :
    getCurrentHumidityByLocation 0 0 ⟨200, ⟨[]⟩, ⟨"e", "m"⟩⟩
      = .error "No humidity data available"
    ∧ responseOk 200 = true
    ∧ getWSTIHeatmap ⟨404, ⟨[], 0, 0, 0⟩, ⟨"e", "m"⟩⟩
      = .error ("HTTP error! status: " ++ toString 404)
    ∧ ("HTTP error! status: " ++ toString 404) ≠ apiErrorMessage ⟨"e", "m"⟩ := by
  exact ⟨rfl, rfl, rfl, by decide⟩

/-- C8 (amended).  `getAllStations`, `getCurrentPrecipitationByLocation`
and `getRecentFireData` return the parsed (for `getAllStations`:
transformed) payload exactly when the status is 2xx and throw the envelope
message exactly when it is not.  The humidity and temperature fetches
follow the envelope on non-2xx, but on 2xx return the first element of the
payload's `data` array and throw a non-envelope "No ... data available"
error when that array is empty.  The WSTI fetches throw
`HTTP error! status: N`, without envelope fields, on non-2xx. -/
theorem claim_C8 (s : ℕ) (env : ApiErrorEnv) (recs : List AirNowRecord)
    (pay : PrecipitationDataResponse) (fire : FireDataResponse)
    (hum : HumidityDataResponse) (temp : TemperatureDataResponse)
    (wsti : WSTIResponse) (wst : WSTIStatus) (lng lat : ℚ) :
    (200 ≤ s ∧ s < 300 →
      getAllStations ⟨s, recs, env⟩ = .ok (transformFastAPIResponse recs)
      ∧ getCurrentPrecipitationByLocation lng lat ⟨s, pay, env⟩ = .ok pay
      ∧ getRecentFireData ⟨s, fire, env⟩ = .ok fire
      ∧ getCurrentHumidityByLocation lng lat ⟨s, hum, env⟩
          = (match hum.data with
             | p :: _ => .ok p
             | [] => .error "No humidity data available")
      ∧ getCurrentTemperatureByLocation lng lat ⟨s, temp, env⟩
          = (match temp.data with
             | p :: _ => .ok p
             | [] => .error "No temperature data available")
      ∧ getWSTIHeatmap ⟨s, wsti, env⟩ = .ok wsti
      ∧ getWSTIStatus ⟨s, wst, env⟩ = .ok wst)
    ∧ (¬(200 ≤ s ∧ s < 300) →
      getAllStations ⟨s, recs, env⟩ = .error (apiErrorMessage env)
      ∧ getCurrentPrecipitationByLocation lng lat ⟨s, pay, env⟩
          = .error (apiErrorMessage env)
      ∧ getRecentFireData ⟨s, fire, env⟩ = .error (apiErrorMessage env)
      ∧ getCurrentHumidityByLocation lng lat ⟨s, hum, env⟩
          = .error (apiErrorMessage env)
      ∧ getCurrentTemperatureByLocation lng lat ⟨s, temp, env⟩
          = .error (apiErrorMessage env)
      ∧ getWSTIHeatmap ⟨s, wsti, env⟩
          = .error ("HTTP error! status: " ++ toString s)
      ∧ getWSTIStatus ⟨s, wst, env⟩
          = .error ("HTTP error! status: " ++ toString s)) := by
  constructor
  · intro h
    have hok : responseOk s = true := by simp [responseOk, h.1, h.2]
    refine ⟨?_, ?_, ?_, ?_, ?_, ?_, ?_⟩ <;>
      simp [getAllStations, getCurrentPrecipitationByLocation,
        getRecentFireData, getCurrentHumidityByLocation,
        getCurrentTemperatureByLocation, getWSTIHeatmap, getWSTIStatus, hok]
  · intro h
    have hok : responseOk s = false := by
      rcases not_and_or.mp h with h1 | h1 <;> simp [responseOk, h1]
    refine ⟨?_, ?_, ?_, ?_, ?_, ?_, ?_⟩ <;>
      simp [getAllStations, getCurrentPrecipitationByLocation,
        getRecentFireData, getCurrentHumidityByLocation,
        getCurrentTemperatureByLocation, getWSTIHeatmap, getWSTIStatus, hok]

/-- Witness for C8: a 200 response yields the payload (first data element
for humidity), a 404 response yields the envelope error for the
envelope-conforming services and the status-only message for WSTI. -/
theorem claim_C8_witness :
    getAllStations ⟨200, [], ⟨"e", "m"⟩⟩ = .ok (transformFastAPIResponse [])
    ∧ getCurrentHumidityByLocation 0 0
        ⟨200, ⟨[⟨1, 2, 50, 10, 20, "ts"⟩]⟩, ⟨"e", "m"⟩⟩
        = .ok ⟨1, 2, 50, 10, 20, "ts"⟩
    ∧ getAllStations ⟨404, [], ⟨"e", "m"⟩⟩
        = .error (apiErrorMessage ⟨"e", "m"⟩)
    ∧ getWSTIHeatmap ⟨404, ⟨[], 0, 0, 0⟩, ⟨"e", "m"⟩⟩
        = .error ("HTTP error! status: " ++ toString 404) :=
  ⟨((claim_C8 200 ⟨"e", "m"⟩ [] ⟨0, 0, none, none, 0, none⟩ ⟨"f", 0, []⟩
      ⟨[⟨1, 2, 50, 10, 20, "ts"⟩]⟩ ⟨[]⟩ ⟨[], 0, 0, 0⟩ ⟨"ok", "t", true⟩ 0 0).1
      (by omega)).1,
   ((claim_C8 200 ⟨"e", "m"⟩ [] ⟨0, 0, none, none, 0, none⟩ ⟨"f", 0, []⟩
      ⟨[⟨1, 2, 50, 10, 20, "ts"⟩]⟩ ⟨[]⟩ ⟨[], 0, 0, 0⟩ ⟨"ok", "t", true⟩ 0 0).1
      (by omega)).2.2.2.1,
   ((claim_C8 404 ⟨"e", "m"⟩ [] ⟨0, 0, none, none, 0, none⟩ ⟨"f", 0, []⟩
      ⟨[⟨1, 2, 50, 10, 20, "ts"⟩]⟩ ⟨[]⟩ ⟨[], 0, 0, 0⟩ ⟨"ok", "t", true⟩ 0 0).2
      (by omega)).1,
   ((claim_C8 404 ⟨"e", "m"⟩ [] ⟨0, 0, none, none, 0, none⟩ ⟨"f", 0, []⟩
      ⟨[⟨1, 2, 50, 10, 20, "ts"⟩]⟩ ⟨[]⟩ ⟨[], 0, 0, 0⟩ ⟨"ok", "t", true⟩ 0 0).2
      (by omega)).2.2.2.2.2.1⟩

/-! ## C1: gate suppression -/

lemma boundsChangedB_false (lb b : Bounds)
    (hw : |b.west - lb.west| ≤ 0.005) (hs : |b.south - lb.south| ≤ 0.005)
    (he : |b.east - lb.east| ≤ 0.005) (hn : |b.north - lb.north| ≤ 0.005) :
    boundsChangedB (some lb) b = false := by
  simp [boundsChangedB, not_lt.mpr hw, not_lt.mpr hs, not_lt.mpr he,
    not_lt.mpr hn]

lemma updateClusters_suppressed (gc : Bounds → ℤ → List ClusterFeature)
    (gl : ℕ → List Leaf) (vp : Viewport) (z : ℚ) (b : Bounds)
    (ms : List Marker)
    (hw : |vp.bounds.west - b.west| ≤ 0.005)
    (hs : |vp.bounds.south - b.south| ≤ 0.005)
    (he : |vp.bounds.east - b.east| ≤ 0.005)
    (hn : |vp.bounds.north - b.north| ≤ 0.005)
    (hz : |vp.zoom - z| ≤ 0.05) :
    updateClusters gc gl vp ⟨some z, some b, ms⟩ = (⟨some z, some b, ms⟩, false) := by
  have h1 : boundsChangedB (some b) vp.bounds = false :=
    boundsChangedB_false b vp.bounds hw hs he hn
  have h2 : zoomChangedB (some z) vp.zoom = false := by
    simp [zoomChangedB, not_lt.mpr hz]
  simp [updateClusters, h1, h2]

lemma updateClusters_commit (gc : Bounds → ℤ → List ClusterFeature)
    (gl : ℕ → List Leaf) (vp : Viewport) (st : LayerState)
    (h : boundsChangedB st.lastBounds vp.bounds = true ∨
         zoomChangedB st.lastZoom vp.zoom = true) :
    updateClusters gc gl vp st =
      ({ lastZoom := some vp.zoom, lastBounds := some vp.bounds,
         markers := renderClusters gl (gc vp.bounds (snappedZoom vp.zoom)) },
       true) := by
  rcases h with h | h <;> simp [updateClusters, h]

/-- C1.  Starting from a committed state, a whole sequence of viewport
changes each moving every bounds edge by at most 0.005 and the zoom by at
most 0.05 performs zero recomputations and leaves markers and committed
state untouched; a single change exceeding any one threshold performs
exactly one recomputation, committing the new bounds and zoom. -/
theorem claim_C1 (gc : Bounds → ℤ → List ClusterFeature) (gl : ℕ → List Leaf)
    (z : ℚ) (b : Bounds) (ms : List Marker) (vps : List Viewport)
    (hsmall : ∀ vp ∈ vps,
      |vp.bounds.west - b.west| ≤ 0.005 ∧ |vp.bounds.south - b.south| ≤ 0.005 ∧
      |vp.bounds.east - b.east| ≤ 0.005 ∧ |vp.bounds.north - b.north| ≤ 0.005 ∧
      |vp.zoom - z| ≤ 0.05) :
    runUpdates gc gl vps ⟨some z, some b, ms⟩ = (⟨some z, some b, ms⟩, 0)
    ∧ ∀ vp : Viewport,
        (0.005 < |vp.bounds.west - b.west| ∨ 0.005 < |vp.bounds.south - b.south| ∨
         0.005 < |vp.bounds.east - b.east| ∨ 0.005 < |vp.bounds.north - b.north| ∨
         0.05 < |vp.zoom - z|) →
        updateClusters gc gl vp ⟨some z, some b, ms⟩ =
          ({ lastZoom := some vp.zoom, lastBounds := some vp.bounds,
             markers := renderClusters gl (gc vp.bounds (snappedZoom vp.zoom)) },
           true) := by
  constructor
  · revert hsmall
    induction vps with
    | nil => intro _; rfl
    | cons vp rest ih =>
        intro hsmall
        have h := hsmall vp (List.mem_cons_self vp rest)
        have hstep := updateClusters_suppressed gc gl vp z b ms
          h.1 h.2.1 h.2.2.1 h.2.2.2.1 h.2.2.2.2
        have hrest := ih (fun w hw => hsmall w (List.mem_cons_of_mem _ hw))
        simp only [runUpdates, List.foldl_cons, hstep] at hrest ⊢
        simpa using hrest
  · intro vp hvp
    apply updateClusters_commit
    rcases hvp with h | h | h | h | h
    · left; simp [boundsChangedB, h]
    · left; simp [boundsChangedB, h]
    · left; simp [boundsChangedB, h]
    · left; simp [boundsChangedB, h]
    · right; simp [zoomChangedB, h]

/-- Witness for C1: a sub-threshold pan is suppressed, a one-unit zoom jump
commits exactly one recompute. -/
theorem claim_C1_witness :
    runUpdates (fun _ _ => []) (fun _ => [])
        [⟨5.01, ⟨0.001, 0, 1, 1⟩⟩] ⟨some 5, some ⟨0, 0, 1, 1⟩, []⟩
      = (⟨some 5, some ⟨0, 0, 1, 1⟩, []⟩, 0)
    ∧ updateClusters (fun _ _ => []) (fun _ => [])
        ⟨6, ⟨0, 0, 1, 1⟩⟩ ⟨some 5, some ⟨0, 0, 1, 1⟩, []⟩
      = (⟨some 6, some ⟨0, 0, 1, 1⟩, []⟩, true) := by
  have h := claim_C1 (fun _ _ => []) (fun _ => []) 5 ⟨0, 0, 1, 1⟩ []
    [⟨5.01, ⟨0.001, 0, 1, 1⟩⟩]
    (by
      intro vp hvp
      simp only [List.mem_singleton] at hvp
      subst hvp
      norm_num [abs_le])
  refine ⟨h.1, ?_⟩
  have h2 := h.2 ⟨6, ⟨0, 0, 1, 1⟩⟩ (by right; right; right; right; norm_num)
  simpa [renderClusters] using h2

/-! ## C2: debounce collapsing -/

lemma debounce_chain (rest : List (ℚ × Viewport)) :
    ∀ (cur : Viewport) (tp : ℚ) (fires : List (ℚ × Viewport)),
    List.Chain (fun a b => a.1 < b.1 ∧ b.1 < a.1 + 50) (tp, cur) rest →
    rest.foldl debStep (cur, some (tp + 50), fires) =
      ((rest.getLastD (tp, cur)).2, some ((rest.getLastD (tp, cur)).1 + 50),
       fires) := by
  induction rest with
  | nil => intro cur tp fires _; rfl
  | cons e rest' ih =>
      intro cur tp fires hchain
      obtain ⟨hrel, htail⟩ := List.chain_cons.mp hchain
      have hnot : ¬ (tp + 50 ≤ e.1) := not_le.mpr hrel.2
      have hred : debStep (cur, some (tp + 50), fires) e
          = (e.2, some (e.1 + 50), fires) := by
        simp [debStep, hnot]
      rw [List.foldl_cons, hred, List.getLastD_cons]
      exact ih e.2 e.1 fires htail

/-- C2.  A run of `moveend`/`zoomend` events in which each event arrives
strictly within 50ms of its predecessor produces exactly one trailing timer
firing (every superseded timer is cancelled), scheduled 50ms after the last
event and reading the viewport current then; that one invocation of the
gated recompute, against the fresh mount state, performs the recomputation
with the last event's bounds and zoom. -/
theorem claim_C2 (gc : Bounds → ℤ → List ClusterFeature) (gl : ℕ → List Leaf)
    (vp0 v0 : Viewport) (t0 : ℚ) (rest : List (ℚ × Viewport))
    (ms : List Marker)
    (hchain : List.Chain (fun a b => a.1 < b.1 ∧ b.1 < a.1 + 50) (t0, v0) rest) :
    debounceRun vp0 ((t0, v0) :: rest) =
      [((rest.getLastD (t0, v0)).1 + 50, (rest.getLastD (t0, v0)).2)]
    ∧ updateClusters gc gl (rest.getLastD (t0, v0)).2 ⟨none, none, ms⟩ =
        ({ lastZoom := some (rest.getLastD (t0, v0)).2.zoom,
           lastBounds := some (rest.getLastD (t0, v0)).2.bounds,
           markers := renderClusters gl
             (gc (rest.getLastD (t0, v0)).2.bounds
               (snappedZoom (rest.getLastD (t0, v0)).2.zoom)) },
         true) := by
  constructor
  · have h0 : debStep (vp0, none, []) (t0, v0) = (v0, some (t0 + 50), []) := by
      simp [debStep]
    have hfold := debounce_chain rest v0 t0 [] hchain
    simp [debounceRun, List.foldl_cons, h0, hfold]
  · exact updateClusters_fresh gc gl _ ms

/-- Witness for C2: two events 30ms apart collapse to one firing at the
last event's time + 50ms, carrying the last event's viewport. -/
theorem claim_C2_witness :
    debounceRun ⟨0, ⟨0, 0, 0, 0⟩⟩
        [(0, ⟨1, ⟨0, 0, 1, 1⟩⟩), (30, ⟨2, ⟨0, 0, 2, 2⟩⟩)]
      = [(80, ⟨2, ⟨0, 0, 2, 2⟩⟩)]
    ∧ updateClusters (fun _ _ => []) (fun _ => []) ⟨2, ⟨0, 0, 2, 2⟩⟩
        ⟨none, none, []⟩
      = (⟨some 2, some ⟨0, 0, 2, 2⟩, []⟩, true) := by
  have h := claim_C2 (fun _ _ => []) (fun _ => []) ⟨0, ⟨0, 0, 0, 0⟩⟩
    ⟨1, ⟨0, 0, 1, 1⟩⟩ 0 [(30, ⟨2, ⟨0, 0, 2, 2⟩⟩)] []
    (List.Chain.cons (by norm_num) List.Chain.nil)
  refine ⟨?_, ?_⟩
  · have h1 := h.1
    norm_num at h1
    simpa using h1
  · have h2 := h.2
    simpa [renderClusters] using h2

/-! ## C4: behaviour on a cluster whose leaves cannot be resolved -/

lemma renderClusters_foldl_init (gl : ℕ → List Leaf) (l : List ClusterFeature) :
    ∀ init : List Marker,
      l.foldl (fun ms c => ms ++ renderOne gl c) init
        = init ++ l.foldl (fun ms c => ms ++ renderOne gl c) [] := by
  induction l with
  | nil => intro init; simp
  | cons c cs ih =>
      intro init
      rw [List.foldl_cons, List.foldl_cons, ih (init ++ renderOne gl c),
        ih ([] ++ renderOne gl c)]
      simp

lemma renderClusters_cons (gl : ℕ → List Leaf) (c : ClusterFeature)
    (ds : List ClusterFeature) :
    renderClusters gl (c :: ds) = renderOne gl c ++ renderClusters gl ds := by
  unfold renderClusters
  rw [List.foldl_cons, renderClusters_foldl_init]
  simp

lemma renderClusters_append (gl : ℕ → List Leaf) (xs ys : List ClusterFeature) :
    renderClusters gl (xs ++ ys) = renderClusters gl xs ++ renderClusters gl ys := by
  unfold renderClusters
  rw [List.foldl_append, renderClusters_foldl_init]

/-- Counterexample to C4 as stated: a cluster primitive whose leaves resolve
to the empty set is NOT skipped — `updateClusters` still renders a cluster
marker for it (with the `(0, 0)` aggregates that `calculateClusterAQI`
returns for an empty leaf list). -/
theorem claim_C4_counterexample :
    renderClusters (fun _ => [])
        [⟨⟨true, some 1, some 5, none, none⟩, ((0 : ℚ), (0 : ℚ))⟩]
      = [Marker.clusterMarker ((0 : ℚ), (0 : ℚ)) 5 0 0]
    ∧ renderClusters (fun _ => [])
        [⟨⟨true, some 1, some 5, none, none⟩, ((0 : ℚ), (0 : ℚ))⟩] ≠ [] := by
  constructor
  · rfl
  · intro h
    have h1 : renderClusters (fun _ => [])
        [⟨⟨true, some 1, some 5, none, none⟩, ((0 : ℚ), (0 : ℚ))⟩]
        = [Marker.clusterMarker ((0 : ℚ), (0 : ℚ)) 5 0 0] := rfl
    rw [h1] at h
    cases h

/-- C4 (amended).  A cluster whose leaves resolve to the empty set gets the
zero aggregates from `calculateClusterAQI` and is still rendered as a
cluster marker carrying them (it is not skipped), while rendering continues
unchanged for all primitives before and after it. -/
theorem claim_C4 (gl : ℕ → List Leaf) (cs ds : List ClusterFeature)
    (c : ClusterFeature) (hc : c.properties.cluster = true)
    (hleaves : gl (c.properties.cluster_id.getD 0) = []) :
    calculateClusterAQI (gl (c.properties.cluster_id.getD 0)) = (0, 0)
    ∧ renderClusters gl (cs ++ c :: ds) =
        renderClusters gl cs ++
          Marker.clusterMarker c.coordinates (c.properties.point_count.getD 0) 0 0 ::
          renderClusters gl ds := by
  have hz : calculateClusterAQI (gl (c.properties.cluster_id.getD 0)) = (0, 0) := by
    rw [hleaves]; rfl
  refine ⟨hz, ?_⟩
  rw [renderClusters_append, renderClusters_cons]
  have hone : renderOne gl c
      = [Marker.clusterMarker c.coordinates (c.properties.point_count.getD 0) 0 0] := by
    simp [renderOne, hc, hz]
  rw [hone]
  simp

/-- Witness for C4 (amended) at a concrete unresolvable cluster. -/
theorem claim_C4_witness :
    calculateClusterAQI ((fun _ => ([] : List Leaf))
        ((⟨⟨true, some 1, some 5, none, none⟩,
          ((0 : ℚ), (0 : ℚ))⟩ : ClusterFeature).properties.cluster_id.getD 0))
      = (0, 0)
    ∧ renderClusters (fun _ => [])
        ([] ++ (⟨⟨true, some 1, some 5, none, none⟩,
            ((0 : ℚ), (0 : ℚ))⟩ : ClusterFeature) :: []) =
        renderClusters (fun _ => []) [] ++
          Marker.clusterMarker ((0 : ℚ), (0 : ℚ)) 5 0 0 ::
          renderClusters (fun _ => []) [] :=
  claim_C4 (fun _ => []) [] []
    ⟨⟨true, some 1, some 5, none, none⟩, ((0 : ℚ), (0 : ℚ))⟩ rfl rfl

/-! ## C7: out-of-range exclusion at index build -/

lemma outOfWorld_not_inUS (s : ProcessedStation)
    (h : outOfWorldRange s = true) : isInUS s = false := by
  rw [Bool.eq_false_iff]
  intro hUS
  unfold isInUS at hUS
  rw [Bool.and_eq_true, Bool.and_eq_true, Bool.and_eq_true] at hUS
  obtain ⟨⟨⟨u1, u2⟩, u3⟩, u4⟩ := hUS
  have hu1 := of_decide_eq_true u1
  have hu2 := of_decide_eq_true u2
  have hu3 := of_decide_eq_true u3
  have hu4 := of_decide_eq_true u4
  unfold outOfWorldRange at h
  rw [Bool.or_eq_true, Bool.or_eq_true, Bool.or_eq_true] at h
  rcases h with ((h1 | h1) | h1) | h1 <;> have := of_decide_eq_true h1 <;>
    linarith

lemma features_map_station (stations : List ProcessedStation) :
    (features stations).map (fun f => f.station) = stations.filter isInUS := by
  unfold features
  rw [List.map_map]
  have hcomp : ((fun f : IndexedFeature => f.station) ∘
      fun p : ℕ × ProcessedStation =>
        (⟨p.2, p.1, stationMaxAQI p.2⟩ : IndexedFeature))
      = Prod.snd := by
    funext p; rfl
  rw [hcomp, List.enum_map_snd]

/-- The Berlin station: world-range-valid coordinates, outside US bounds. -/
def berlinStation : ProcessedStation :=
  ⟨"Berlin", "BE", (10, 50), [("PM2.5", ⟨10, "Good"⟩)]⟩

/-- A US station that passes the `isInUS` filter. -/
def denverStation : ProcessedStation :=
  ⟨"Denver", "CO", (-105, 40), [("O3", ⟨30, "Good"⟩)]⟩

/-- A station at longitude 200, outside the world coordinate range. -/
def badStation : ProcessedStation :=
  ⟨"Nowhere", "XX", (200, 40), [("O3", ⟨30, "Good"⟩)]⟩

/-- Counterexample to C7 as stated: the builder's filter is the US bounds,
not the world bounds, so a world-range-valid record (Berlin, longitude 10)
is also excluded and the indexed count is NOT "inputs minus out-of-range
records". -/
theorem claim_C7_counterexample :
    outOfWorldRange berlinStation = false
    ∧ (features [berlinStation]).length = 0
    ∧ [berlinStation].length - ([berlinStation].filter outOfWorldRange).length
        = 1 := by
  exact ⟨rfl, rfl, rfl⟩

/-- C7 (amended).  The build never fails; the number of indexed features
equals the number of records passing the US-bounds filter, and every
out-of-world-range record is excluded from the index (the US filter is a
sub-range of the world range). -/
theorem claim_C7 (stations : List ProcessedStation) :
    (features stations).length = (stations.filter isInUS).length
    ∧ ∀ s ∈ stations, outOfWorldRange s = true →
        ∀ f ∈ features stations, f.station ≠ s := by
  constructor
  · unfold features
    rw [List.length_map, List.enum_length]
  · intro s _ hout f hf heq
    have hm : f.station ∈ (features stations).map (fun f => f.station) :=
      List.mem_map_of_mem _ hf
    rw [features_map_station] at hm
    have hUS : isInUS f.station = true := (List.mem_filter.mp hm).2
    rw [heq, outOfWorld_not_inUS s hout] at hUS
    cases hUS

/-- Witness for C7 at a concrete station list containing a longitude-200
record. -/
theorem claim_C7_witness :
    (features [denverStation, badStation]).length
      = ([denverStation, badStation].filter isInUS).length
    ∧ ∀ f ∈ features [denverStation, badStation], f.station ≠ badStation := by
  have h := claim_C7 [denverStation, badStation]
  exact ⟨h.1, fun f hf => h.2 badStation (by simp) rfl f hf⟩

/-! ## C5: clustering threshold boundary (spec-modelled index) -/

lemma withinRadius_symm (r : ℚ) (a b : ℚ × ℚ) :
    withinRadius r a b = withinRadius r b a := by
  unfold withinRadius
  rw [show (a.1 - b.1) ^ 2 = (b.1 - a.1) ^ 2 from by ring,
    show (a.2 - b.2) ^ 2 = (b.2 - a.2) ^ 2 from by ring]

lemma clusterPass_cluster_count (mp : ℕ) (r : ℚ) :
    ∀ (N : ℕ) (pts : List (ℚ × ℚ)), pts.length ≤ N →
      ∀ c n, ClusterPrim.Cluster c n ∈ clusterPass mp r pts → mp ≤ n := by
  intro N
  induction N with
  | zero =>
      intro pts hlen c n hmem
      have hnil : pts = [] := List.eq_nil_of_length_eq_zero (Nat.le_zero.mp hlen)
      subst hnil
      simp [clusterPass] at hmem
  | succ N ih =>
      intro pts hlen c n hmem
      cases pts with
      | nil => simp [clusterPass] at hmem
      | cons p rest =>
          have hrlen : rest.length ≤ N := by
            simp only [List.length_cons] at hlen
            omega
          simp only [clusterPass] at hmem
          by_cases hc : mp ≤ (rest.filter (fun q => withinRadius r p q)).length + 1
          · rw [if_pos hc] at hmem
            rcases List.mem_cons.mp hmem with h | h
            · injection h with h1 h2
              subst h2
              exact hc
            · exact ih _ (le_trans (List.length_filter_le _ _) hrlen) c n h
          · rw [if_neg hc] at hmem
            rcases List.mem_cons.mp hmem with h | h
            · exact ClusterPrim.noConfusion h
            · exact ih _ hrlen c n h

lemma clusterPass_isolated (r : ℚ) :
    ∀ (N : ℕ) (pts : List (ℚ × ℚ)), pts.length ≤ N → pts.Nodup →
      ∀ p ∈ pts, (∀ q ∈ pts, q ≠ p → withinRadius r p q = false) →
      ClusterPrim.SinglePoint p ∈ clusterPass 2 r pts := by
  intro N
  induction N with
  | zero =>
      intro pts hlen _ p hp _
      have hnil : pts = [] := List.eq_nil_of_length_eq_zero (Nat.le_zero.mp hlen)
      subst hnil
      cases hp
  | succ N ih =>
      intro pts hlen hnd p hp hiso
      cases pts with
      | nil => cases hp
      | cons x rest =>
          have hrlen : rest.length ≤ N := by
            simp only [List.length_cons] at hlen
            omega
          by_cases hxp : x = p
          · subst hxp
            have hnear : rest.filter (fun q => withinRadius r x q) = [] := by
              rw [List.filter_eq_nil_iff]
              intro q hq
              have hqx : q ≠ x := by
                intro he
                subst he
                exact (List.nodup_cons.mp hnd).1 hq
              simp [hiso q (List.mem_cons_of_mem _ hq) hqx]
            simp only [clusterPass, hnear]
            rw [if_neg (by simp)]
            exact List.mem_cons_self _ _
          · have hpr : p ∈ rest := by
              rcases List.mem_cons.mp hp with h | h
              · exact absurd h.symm hxp
              · exact h
            have hxpFalse : withinRadius r x p = false := by
              rw [withinRadius_symm]
              exact hiso x (List.mem_cons_self _ _) hxp
            simp only [clusterPass]
            by_cases hcl : 2 ≤ (rest.filter (fun q => withinRadius r x q)).length + 1
            · rw [if_pos hcl]
              apply List.mem_cons_of_mem
              apply ih (rest.filter (fun q => !(withinRadius r x q)))
                (le_trans (List.length_filter_le _ _) hrlen)
                (((List.nodup_cons.mp hnd).2).filter _) p
              · rw [List.mem_filter]
                exact ⟨hpr, by simp [hxpFalse]⟩
              · intro q hq hqp
                exact hiso q
                  (List.mem_cons_of_mem _ (List.mem_filter.mp hq).1) hqp
            · rw [if_neg hcl]
              apply List.mem_cons_of_mem
              apply ih rest hrlen ((List.nodup_cons.mp hnd).2) p hpr
              intro q hq hqp
              exact hiso q (List.mem_cons_of_mem _ hq) hqp

lemma clusterPass_group (r : ℚ) (p : ℚ × ℚ) (rest : List (ℚ × ℚ))
    (h : rest ≠ []) (hall : ∀ q ∈ rest, withinRadius r p q = true) :
    clusterPass 2 r (p :: rest) = [ClusterPrim.Cluster p (rest.length + 1)] := by
  have h1 : rest.filter (fun q => withinRadius r p q) = rest :=
    List.filter_eq_self.mpr hall
  have h2 : rest.filter (fun q => !(withinRadius r p q)) = [] := by
    rw [List.filter_eq_nil_iff]
    intro q hq
    simp [hall q hq]
  have hlen : 1 ≤ rest.length := List.length_pos.mpr h
  simp only [clusterPass, h1, h2]
  rw [if_pos (by omega)]

/-- C5.  With the configured `minPoints = 2`: a point with no other point
within the cluster radius is always classified as a SinglePoint; a group of
two or more points within the radius of its first member comes back as one
Cluster containing all of them; every Cluster produced has membership
count ≥ 2; and a SinglePoint primitive carrying a station renders as an
individual station marker. -/
theorem claim_C5 (r : ℚ) (pts : List (ℚ × ℚ)) :
    (pts.Nodup → ∀ p ∈ pts,
      (∀ q ∈ pts, q ≠ p → withinRadius r p q = false) →
      ClusterPrim.SinglePoint p ∈
        clusterPass superclusterOptions.minPoints r pts)
    ∧ (∀ (p : ℚ × ℚ) (group : List (ℚ × ℚ)), group ≠ [] →
      (∀ q ∈ group, withinRadius r p q = true) →
      clusterPass superclusterOptions.minPoints r (p :: group)
        = [ClusterPrim.Cluster p (group.length + 1)])
    ∧ (∀ c n, ClusterPrim.Cluster c n ∈
        clusterPass superclusterOptions.minPoints r pts →
      superclusterOptions.minPoints ≤ n)
    ∧ (∀ (g : ℕ → List Leaf) (s : ProcessedStation) (coords : ℚ × ℚ),
      renderOne g ⟨⟨false, none, none, some s, none⟩, coords⟩
        = [Marker.stationMarker coords s]) := by
  refine ⟨?_, ?_, ?_, ?_⟩
  · intro hnd p hp hiso
    exact clusterPass_isolated r pts.length pts le_rfl hnd p hp hiso
  · intro p group hne hall
    exact clusterPass_group r p group hne hall
  · intro c n h
    exact clusterPass_cluster_count superclusterOptions.minPoints r
      pts.length pts le_rfl c n h
  · intro g s coords
    rfl

/-- Witness for C5: radius 5, an isolated pair far apart stays single, two
nearby points form one 2-member cluster. -/
theorem claim_C5_witness :
    ClusterPrim.SinglePoint ((0 : ℚ), (0 : ℚ)) ∈
      clusterPass superclusterOptions.minPoints 5 [(0, 0), (100, 100)]
    ∧ clusterPass superclusterOptions.minPoints 5 [(0, 0), (1, 1)]
        = [ClusterPrim.Cluster ((0 : ℚ), (0 : ℚ)) ([((1 : ℚ), (1 : ℚ))].length + 1)] :=
  ⟨(claim_C5 5 [(0, 0), (100, 100)]).1 (by decide) (0, 0) (by decide)
      (by
        intro q hq hne
        simp only [List.mem_cons, List.mem_singleton, List.not_mem_nil,
          or_false] at hq
        rcases hq with rfl | rfl
        · exact absurd rfl hne
        · simp only [withinRadius]
          norm_num),
   (claim_C5 5 [(0, 0), (1, 1)]).2.1 (0, 0) [(1, 1)] (by norm_num)
      (by
        intro q hq
        simp only [List.mem_singleton] at hq
        subst hq
        simp only [withinRadius]
        norm_num)⟩

/-! ## C9/C10: association-list lemmas for `transformFastAPIResponse` -/

lemma find?_append_cases {α : Type} (p : α → Bool) (l1 l2 : List α) :
    (l1 ++ l2).find? p =
      match l1.find? p with
      | some a => some a
      | none => l2.find? p := by
  induction l1 with
  | nil => simp
  | cons a t ih =>
      by_cases h : p a
      · simp [List.find?_cons_of_pos _ h]
      · simp only [List.cons_append, List.find?_cons_of_neg _ h, ih]

lemma find?_map_keyfix {β : Type} (l : List (String × β)) (q : String)
    (f : String × β → String × β) (hf : ∀ p, (f p).1 = p.1) :
    (l.map f).find? (fun p => decide (p.1 = q))
      = (l.find? (fun p => decide (p.1 = q))).map f := by
  rw [List.find?_map f l]
  have hp : ((fun p : String × β => decide (p.1 = q)) ∘ f)
      = (fun p : String × β => decide (p.1 = q)) := by
    funext p
    simp [Function.comp, hf p]
  rw [hp]

lemma map_fst_map_keyfix {β : Type} (l : List (String × β))
    (f : String × β → String × β) (hf : ∀ p, (f p).1 = p.1) :
    (l.map f).map Prod.fst = l.map Prod.fst := by
  induction l with
  | nil => rfl
  | cons a t ih => simp [hf a, ih]

lemma lookupPollutant_setPollutant (ps : List (String × PollutantEntry))
    (k q : String) (v : PollutantEntry) :
    lookupPollutant (setPollutant ps k v) q
      = if q = k then some v else lookupPollutant ps q := by
  have hf : ∀ p : String × PollutantEntry,
      ((if p.1 = k then (p.1, v) else p) : String × PollutantEntry).1 = p.1 := by
    intro p
    by_cases h : p.1 = k <;> simp [h]
  unfold setPollutant
  by_cases hany : ps.any (fun p => decide (p.1 = k)) = true
  · rw [if_pos hany]
    unfold lookupPollutant
    rw [find?_map_keyfix ps q _ hf]
    by_cases hq : q = k
    · subst hq
      rcases List.any_eq_true.mp hany with ⟨p0, hp0, hdec⟩
      cases hf2 : ps.find? (fun p => decide (p.1 = q)) with
      | none =>
          rw [List.find?_eq_none] at hf2
          exact absurd hdec (hf2 p0 hp0)
      | some p1 =>
          have hp11 : p1.1 = q := by
            have hx := List.find?_some hf2
            simpa using hx
          simp [hp11]
    · rw [if_neg hq]
      cases hf2 : ps.find? (fun p => decide (p.1 = q)) with
      | none => simp
      | some p1 =>
          have hp11 : p1.1 = q := by
            have hx := List.find?_some hf2
            simpa using hx
          simp [hp11, hq]
  · rw [if_neg hany]
    unfold lookupPollutant
    rw [find?_append_cases]
    by_cases hq : q = k
    · subst hq
      have hnone : ps.find? (fun p => decide (p.1 = q)) = none := by
        rw [List.find?_eq_none]
        intro x hx hdec
        exact hany (List.any_eq_true.mpr ⟨x, hx, hdec⟩)
      rw [hnone]
      simp [List.find?]
    · have : ¬ (k = q) := fun he => hq he.symm
      cases hf2 : ps.find? (fun p => decide (p.1 = q)) with
      | none => simp [hf2, List.find?, this, hq]
      | some p1 => simp [hf2, List.find?, this, hq]

lemma lookupStation_insertRecord (m : List (String × ProcessedStation))
    (r : AirNowRecord) (k : String) :
    lookupStation (insertRecord m r) k =
      if k = recordKey r then
        some (addPollutant
          ((lookupStation m (recordKey r)).getD (freshStation r)) r)
      else lookupStation m k := by
  have hf : ∀ p : String × ProcessedStation,
      ((if p.1 = recordKey r then (p.1, addPollutant p.2 r) else p) :
        String × ProcessedStation).1 = p.1 := by
    intro p
    by_cases h : p.1 = recordKey r <;> simp [h]
  unfold insertRecord
  by_cases hany : m.any (fun p => decide (p.1 = recordKey r)) = true
  · rw [if_pos hany]
    unfold lookupStation
    rw [find?_map_keyfix m k _ hf]
    by_cases hk : k = recordKey r
    · subst hk
      rw [if_pos rfl]
      cases hf2 : m.find? (fun p => decide (p.1 = recordKey r)) with
      | none =>
          rcases List.any_eq_true.mp hany with ⟨p0, hp0, hdec⟩
          rw [List.find?_eq_none] at hf2
          exact absurd hdec (hf2 p0 hp0)
      | some p1 =>
          have hp11 : p1.1 = recordKey r := by
            have hx := List.find?_some hf2
            simpa using hx
          simp [hp11]
    · rw [if_neg hk]
      cases hf2 : m.find? (fun p => decide (p.1 = k)) with
      | none => simp
      | some p1 =>
          have hp11 : p1.1 = k := by
            have hx := List.find?_some hf2
            simpa using hx
          simp [hp11, hk]
  · rw [if_neg hany]
    have hmnone : m.find? (fun p => decide (p.1 = recordKey r)) = none := by
      rw [List.find?_eq_none]
      intro x hx hdec
      exact hany (List.any_eq_true.mpr ⟨x, hx, hdec⟩)
    unfold lookupStation
    rw [List.map_append, find?_append_cases, find?_map_keyfix m k _ hf]
    by_cases hk : k = recordKey r
    · subst hk
      rw [hmnone]
      simp [List.find?, hmnone]
    · have hne : ¬ (recordKey r = k) := fun he => hk he.symm
      cases hf2 : m.find? (fun p => decide (p.1 = k)) with
      | none => simp [List.find?, hne, hk]
      | some p1 =>
          have hp11 : p1.1 = k := by
            have hx := List.find?_some hf2
            simpa using hx
          simp [List.find?, hne, hk, hp11]

lemma keys_insertRecord (m : List (String × ProcessedStation))
    (r : AirNowRecord) :
    (insertRecord m r).map Prod.fst =
      if m.any (fun p => decide (p.1 = recordKey r)) = true
      then m.map Prod.fst
      else m.map Prod.fst ++ [recordKey r] := by
  have hf : ∀ p : String × ProcessedStation,
      ((if p.1 = recordKey r then (p.1, addPollutant p.2 r) else p) :
        String × ProcessedStation).1 = p.1 := by
    intro p
    by_cases h : p.1 = recordKey r <;> simp [h]
  unfold insertRecord
  by_cases hany : m.any (fun p => decide (p.1 = recordKey r)) = true
  · rw [if_pos hany, if_pos hany, map_fst_map_keyfix m _ hf]
  · rw [if_neg hany, if_neg hany, map_fst_map_keyfix _ _ hf,
      List.map_append]
    rfl

lemma mem_keys_foldl (rs : List AirNowRecord) :
    ∀ (m : List (String × ProcessedStation)) (k : String),
      (k ∈ (rs.foldl insertRecord m).map Prod.fst) ↔
        k ∈ m.map Prod.fst ∨ k ∈ rs.map recordKey := by
  induction rs with
  | nil => intro m k; simp
  | cons r rs' ih =>
      intro m k
      rw [List.foldl_cons, ih, keys_insertRecord, List.map_cons]
      by_cases hany : m.any (fun p => decide (p.1 = recordKey r)) = true
      · rw [if_pos hany]
        have hkr : recordKey r ∈ m.map Prod.fst := by
          rcases List.any_eq_true.mp hany with ⟨p, hp, hdec⟩
          have hpk : p.1 = recordKey r := of_decide_eq_true hdec
          exact hpk ▸ List.mem_map_of_mem Prod.fst hp
        constructor
        · rintro (h | h)
          · exact Or.inl h
          · exact Or.inr (List.mem_cons_of_mem _ h)
        · rintro (h | h)
          · exact Or.inl h
          · rcases List.mem_cons.mp h with h | h
            · exact Or.inl (h ▸ hkr)
            · exact Or.inr h
      · rw [if_neg hany]
        simp only [List.mem_append, List.mem_singleton, List.mem_cons]
        tauto

lemma nodup_keys_foldl (rs : List AirNowRecord) :
    ∀ (m : List (String × ProcessedStation)),
      (m.map Prod.fst).Nodup → ((rs.foldl insertRecord m).map Prod.fst).Nodup := by
  induction rs with
  | nil => intro m h; exact h
  | cons r rs' ih =>
      intro m h
      rw [List.foldl_cons]
      apply ih
      rw [keys_insertRecord]
      by_cases hany : m.any (fun p => decide (p.1 = recordKey r)) = true
      · rw [if_pos hany]; exact h
      · rw [if_neg hany]
        have hnot : recordKey r ∉ m.map Prod.fst := by
          intro hmem
          rcases List.mem_map.mp hmem with ⟨p, hp, hk⟩
          exact hany (List.any_eq_true.mpr ⟨p, hp, decide_eq_true hk⟩)
        simp [List.nodup_append, h, hnot]

lemma lookup_of_mem_nodup (m : List (String × ProcessedStation)) :
    (m.map Prod.fst).Nodup →
    ∀ (k : String) (s : ProcessedStation), (k, s) ∈ m →
      lookupStation m k = some s := by
  induction m with
  | nil => intro _ k s h; cases h
  | cons a t ih =>
      intro hnd k s hmem
      have hnd' : a.1 ∉ t.map Prod.fst ∧ (t.map Prod.fst).Nodup := by
        rw [List.map_cons] at hnd
        exact List.nodup_cons.mp hnd
      rcases List.mem_cons.mp hmem with h | h
      · rw [← h]
        unfold lookupStation
        rw [List.find?_cons_of_pos _ (by simp)]
        rfl
      · have hk : k ∈ t.map Prod.fst := by
          have := List.mem_map_of_mem Prod.fst h
          simpa using this
        have hane : ¬ (a.1 = k) := by
          intro he
          exact hnd'.1 (he ▸ hk)
        unfold lookupStation
        rw [List.find?_cons_of_neg _ (by simp [hane])]
        exact ih hnd'.2 k s h

lemma not_mem_keys_of_lookup_none (m : List (String × ProcessedStation))
    (k : String) (h : lookupStation m k = none) : k ∉ m.map Prod.fst := by
  intro hmem
  rcases List.mem_map.mp hmem with ⟨p, hp, hpk⟩
  unfold lookupStation at h
  cases hf : m.find? (fun p => decide (p.1 = k)) with
  | none =>
      rw [List.find?_eq_none] at hf
      exact hf p hp (decide_eq_true hpk)
  | some q => rw [hf] at h; cases h

lemma totalStations_eq (records : List AirNowRecord) :
    (records.foldl insertRecord []).length
      = ((records.map recordKey).dedup).length := by
  have h1 : ((records.foldl insertRecord
      ([] : List (String × ProcessedStation))).map Prod.fst).Nodup :=
    nodup_keys_foldl records [] (by simp)
  have h2 : ∀ k, k ∈ (records.foldl insertRecord
      ([] : List (String × ProcessedStation))).map Prod.fst
      ↔ k ∈ (records.map recordKey).dedup := by
    intro k
    rw [mem_keys_foldl, List.mem_dedup]
    simp
  have hperm := (List.perm_ext_iff_of_nodup h1
    ((records.map recordKey).nodup_dedup)).mpr h2
  have hlen := hperm.length_eq
  rw [List.length_map] at hlen
  exact hlen

lemma station_identity_foldl (rs : List AirNowRecord) :
    ∀ (m : List (String × ProcessedStation)) (k : String)
      (s : ProcessedStation),
    lookupStation (rs.foldl insertRecord m) k = some s →
    (∃ s0, lookupStation m k = some s0
        ∧ s.city = s0.city ∧ s.state = s0.state
        ∧ s.coordinates = s0.coordinates)
    ∨ (lookupStation m k = none
        ∧ ∃ r0, rs.find? (fun x => decide (recordKey x = k)) = some r0
            ∧ s.city = r0.city ∧ s.state = r0.state
            ∧ s.coordinates = (r0.longitude, r0.latitude)) := by
  induction rs with
  | nil =>
      intro m k s h
      exact Or.inl ⟨s, h, rfl, rfl, rfl⟩
  | cons r rs' ih =>
      intro m k s h
      rw [List.foldl_cons] at h
      rcases ih _ k s h with ⟨s0, h0, hc, hst, hco⟩ |
        ⟨hnone, r0, hfind, hc, hst, hco⟩
      · rw [lookupStation_insertRecord] at h0
        by_cases hk : k = recordKey r
        · rw [if_pos hk] at h0
          injection h0 with h0
          cases hm : lookupStation m (recordKey r) with
          | some sm =>
              left
              rw [hm] at h0
              refine ⟨sm, by rw [hk]; exact hm, ?_, ?_, ?_⟩
              · rw [hc, ← h0]; rfl
              · rw [hst, ← h0]; rfl
              · rw [hco, ← h0]; rfl
          | none =>
              right
              constructor
              · rw [hk]; exact hm
              refine ⟨r, ?_, ?_, ?_, ?_⟩
              · exact List.find?_cons_of_pos _ (by simp [hk])
              · rw [hm] at h0
                rw [hc, ← h0]; rfl
              · rw [hm] at h0
                rw [hst, ← h0]; rfl
              · rw [hm] at h0
                rw [hco, ← h0]; rfl
        · rw [if_neg hk] at h0
          exact Or.inl ⟨s0, h0, hc, hst, hco⟩
      · rw [lookupStation_insertRecord] at hnone
        by_cases hk : k = recordKey r
        · rw [if_pos hk] at hnone
          cases hnone
        · rw [if_neg hk] at hnone
          right
          refine ⟨hnone, r0, ?_, hc, hst, hco⟩
          rw [List.find?_cons_of_neg _ (by simp; exact fun he => hk he.symm)]
          exact hfind

lemma filter_singleton_of_pred_true {α : Type} (p : α → Bool) (a : α)
    (h : p a = true) : [a].filter p = [a] := by
  simp [List.filter, h]

lemma filter_singleton_of_pred_false {α : Type} (p : α → Bool) (a : α)
    (h : p a = false) : [a].filter p = [] := by
  simp [List.filter, h]

lemma pollutant_last_write (rs : List AirNowRecord) :
    ∀ (k : String) (s : ProcessedStation) (p : String),
    lookupStation (rs.foldl insertRecord []) k = some s →
    lookupPollutant s.pollutants p =
      ((rs.filter (fun x => decide (recordKey x = k)
          && decide (x.pollutant = p))).getLast?).map
        (fun x => (⟨x.aqi, x.category⟩ : PollutantEntry)) := by
  induction rs using List.reverseRecOn with
  | nil =>
      intro k s p h
      simp [lookupStation] at h
  | append_singleton rs' r ih =>
      intro k s p h
      rw [List.foldl_append, List.foldl_cons, List.foldl_nil] at h
      rw [lookupStation_insertRecord] at h
      rw [List.filter_append]
      by_cases hk : k = recordKey r
      · subst hk
        rw [if_pos rfl] at h
        injection h with h
        rw [← h]
        rw [show (addPollutant
            ((lookupStation (rs'.foldl insertRecord []) (recordKey r)).getD
              (freshStation r)) r).pollutants
          = setPollutant
              ((lookupStation (rs'.foldl insertRecord []) (recordKey r)).getD
                (freshStation r)).pollutants r.pollutant
              ⟨r.aqi, r.category⟩ from rfl]
        rw [lookupPollutant_setPollutant]
        by_cases hp : p = r.pollutant
        · rw [if_pos hp]
          have hpred : (decide (recordKey r = recordKey r)
              && decide (r.pollutant = p)) = true := by
            simp [hp.symm]
          rw [filter_singleton_of_pred_true
            (fun x => decide (recordKey x = recordKey r)
              && decide (x.pollutant = p)) r hpred, List.getLast?_concat]
          rfl
        · rw [if_neg hp]
          have hpred : (decide (recordKey r = recordKey r)
              && decide (r.pollutant = p)) = false := by
            have : ¬ (r.pollutant = p) := fun he => hp he.symm
            simp [this]
          rw [filter_singleton_of_pred_false
            (fun x => decide (recordKey x = recordKey r)
              && decide (x.pollutant = p)) r hpred, List.append_nil]
          cases hm : lookupStation (rs'.foldl insertRecord []) (recordKey r) with
          | some sm =>
              rw [Option.getD_some]
              exact ih (recordKey r) sm p hm
          | none =>
              have hfil : rs'.filter (fun x => decide (recordKey x = recordKey r)
                  && decide (x.pollutant = p)) = [] := by
                rw [List.filter_eq_nil_iff]
                intro a ha hpreda
                have h1 : recordKey a = recordKey r :=
                  of_decide_eq_true ((Bool.and_eq_true _ _).mp hpreda).1
                have hmemk : recordKey r ∈
                    (rs'.foldl insertRecord
                      ([] : List (String × ProcessedStation))).map Prod.fst := by
                  rw [mem_keys_foldl]
                  right
                  exact h1 ▸ List.mem_map_of_mem recordKey ha
                exact not_mem_keys_of_lookup_none _ _ hm hmemk
              rw [hfil]
              rfl
      · rw [if_neg hk] at h
        have hpred : (decide (recordKey r = k)
            && decide (r.pollutant = p)) = false := by
          have : ¬ (recordKey r = k) := fun he => hk he.symm
          simp [this]
        rw [filter_singleton_of_pred_false
          (fun x => decide (recordKey x = k)
            && decide (x.pollutant = p)) r hpred, List.append_nil]
        exact ih k s p h

lemma setPollutant_ne_nil (ps : List (String × PollutantEntry)) (k : String)
    (v : PollutantEntry) : setPollutant ps k v ≠ [] := by
  unfold setPollutant
  by_cases hany : ps.any (fun p => decide (p.1 = k)) = true
  · rw [if_pos hany]
    rcases List.any_eq_true.mp hany with ⟨p0, hp0, _⟩
    intro h
    rw [List.map_eq_nil_iff] at h
    subst h
    cases hp0
  · rw [if_neg hany]
    simp

lemma pollutants_ne_nil_insert (m : List (String × ProcessedStation))
    (r : AirNowRecord)
    (hm : ∀ q ∈ m, (Prod.snd q).pollutants ≠ []) :
    ∀ q ∈ insertRecord m r, (Prod.snd q).pollutants ≠ [] := by
  intro q hq
  unfold insertRecord at hq
  rcases List.mem_map.mp hq with ⟨p0, hp0, hupd⟩
  by_cases hp : p0.1 = recordKey r
  · rw [if_pos hp] at hupd
    rw [← hupd]
    exact setPollutant_ne_nil _ _ _
  · rw [if_neg hp] at hupd
    rw [← hupd]
    by_cases hany : m.any (fun p => decide (p.1 = recordKey r)) = true
    · rw [if_pos hany] at hp0
      exact hm p0 hp0
    · rw [if_neg hany] at hp0
      rcases List.mem_append.mp hp0 with h | h
      · exact hm p0 h
      · rw [List.mem_singleton] at h
        exact absurd (by rw [h]) hp

lemma pollutants_ne_nil_foldl (rs : List AirNowRecord) :
    ∀ (m : List (String × ProcessedStation)),
      (∀ q ∈ m, (Prod.snd q).pollutants ≠ []) →
      ∀ q ∈ rs.foldl insertRecord m, (Prod.snd q).pollutants ≠ [] := by
  induction rs with
  | nil => intro m hm; exact hm
  | cons r rs' ih =>
      intro m hm
      rw [List.foldl_cons]
      exact ih _ (pollutants_ne_nil_insert m r hm)

/-- Every station in the transform's output is stored under the key string
rebuilt from its own city/state, and that key's first record supplies its
identity fields. -/
lemma station_key_of_mem (records : List AirNowRecord) (s : ProcessedStation)
    (hs : s ∈ (transformFastAPIResponse records).stations) :
    lookupStation (records.foldl insertRecord []) (s.city ++ "," ++ s.state)
      = some s
    ∧ ∃ r0, records.find?
        (fun x => decide (recordKey x = s.city ++ "," ++ s.state)) = some r0
        ∧ s.city = r0.city ∧ s.state = r0.state
        ∧ s.coordinates = (r0.longitude, r0.latitude) := by
  have hs' : s ∈ (records.foldl insertRecord
      ([] : List (String × ProcessedStation))).map Prod.snd := hs
  rcases List.mem_map.mp hs' with ⟨p0, hp0, hsnd⟩
  have hnodup := nodup_keys_foldl records [] (by simp)
  have hmem : (p0.1, s) ∈ records.foldl insertRecord [] := by
    rw [← hsnd]
    exact hp0
  have hlook : lookupStation (records.foldl insertRecord []) p0.1 = some s :=
    lookup_of_mem_nodup _ hnodup p0.1 s hmem
  rcases station_identity_foldl records [] p0.1 s hlook with
    ⟨s0, h0, _⟩ | ⟨_, r0, hfind, hc, hst, hco⟩
  · simp [lookupStation] at h0
  · have hkr : recordKey r0 = p0.1 := by
      have hx := List.find?_some hfind
      simpa using hx
    have hkey : p0.1 = s.city ++ "," ++ s.state := by
      rw [← hkr, recordKey, ← hc, ← hst]
    rw [hkey] at hlook hfind
    exact ⟨hlook, r0, hfind, hc, hst, hco⟩

/-- C9 (amended).  `transformFastAPIResponse` groups by the comma-joined
key string `city,state`: `totalStations` is the number of distinct key
strings among the records; each returned station carries the city, state
and coordinates of the first record with its key string; and per key string
and pollutant name the last record wins (the stored entry is exactly the
last matching record's aqi/category, or absent when no record matches). -/
theorem claim_C9 (records : List AirNowRecord) :
    (transformFastAPIResponse records).totalStations
      = ((records.map recordKey).dedup).length
    ∧ (∀ s ∈ (transformFastAPIResponse records).stations,
        ∃ r0, records.find?
            (fun x => decide (recordKey x = s.city ++ "," ++ s.state)) = some r0
          ∧ s.city = r0.city ∧ s.state = r0.state
          ∧ s.coordinates = (r0.longitude, r0.latitude))
    ∧ (∀ s ∈ (transformFastAPIResponse records).stations, ∀ p,
        lookupPollutant s.pollutants p =
          ((records.filter (fun x =>
              decide (recordKey x = s.city ++ "," ++ s.state)
              && decide (x.pollutant = p))).getLast?).map
            (fun x => (⟨x.aqi, x.category⟩ : PollutantEntry))) := by
  refine ⟨totalStations_eq records, ?_, ?_⟩
  · intro s hs
    exact (station_key_of_mem records s hs).2
  · intro s hs p
    exact pollutant_last_write records (s.city ++ "," ++ s.state) s p
      (station_key_of_mem records s hs).1

/-- Counterexample to C9 as stated: the key is the unescaped comma-join, so
the two distinct (city, state) pairs ("a,b", "c") and ("a", "b,c") collide
on the key string "a,b,c" and yield `totalStations = 1`, not 2. -/
theorem claim_C9_counterexample :
    (transformFastAPIResponse
      [⟨"d", "t", "c", "a,b", "PM", 10, "Good", 1, 2⟩,
       ⟨"d", "t", "b,c", "a", "PM", 20, "Mod", 3, 4⟩]).totalStations = 1
    ∧ (("a,b", "c") : String × String) ≠ ("a", "b,c") := by
  exact ⟨rfl, by decide⟩

/-- Witness for C9 at a concrete two-record input sharing one station key:
coordinates come from the first record, the second record's aqi overwrites
the first's for the same pollutant. -/
theorem claim_C9_witness :
    (transformFastAPIResponse
      [⟨"d", "t", "CO", "Denver", "O3", 30, "Good", 40, -105⟩,
       ⟨"d", "t", "CO", "Denver", "O3", 80, "Moderate", 41, -106⟩]).totalStations
      = (([⟨"d", "t", "CO", "Denver", "O3", 30, "Good", 40, -105⟩,
          ⟨"d", "t", "CO", "Denver", "O3", 80, "Moderate", 41, -106⟩] :
            List AirNowRecord).map recordKey).dedup.length
    ∧ ∀ s ∈ (transformFastAPIResponse
        [⟨"d", "t", "CO", "Denver", "O3", 30, "Good", 40, -105⟩,
         ⟨"d", "t", "CO", "Denver", "O3", 80, "Moderate", 41, -106⟩]).stations,
        ∀ p, lookupPollutant s.pollutants p =
          ((([⟨"d", "t", "CO", "Denver", "O3", 30, "Good", 40, -105⟩,
              ⟨"d", "t", "CO", "Denver", "O3", 80, "Moderate", 41, -106⟩] :
                List AirNowRecord).filter (fun x =>
              decide (recordKey x = s.city ++ "," ++ s.state)
              && decide (x.pollutant = p))).getLast?).map
            (fun x => (⟨x.aqi, x.category⟩ : PollutantEntry)) :=
  ⟨(claim_C9 [⟨"d", "t", "CO", "Denver", "O3", 30, "Good", 40, -105⟩,
      ⟨"d", "t", "CO", "Denver", "O3", 80, "Moderate", 41, -106⟩]).1,
   (claim_C9 [⟨"d", "t", "CO", "Denver", "O3", 30, "Good", 40, -105⟩,
      ⟨"d", "t", "CO", "Denver", "O3", 80, "Moderate", 41, -106⟩]).2.2⟩

/-! ## C10: non-empty pollutant maps and a real maximum -/

/-- C10.  Every station produced by `transformFastAPIResponse` has a
non-empty pollutants map, so the cluster layer's derived value
`Math.max(...values)` is the maximum of a non-empty list: a finite value
(never `-Infinity`/`⊥`) that is one of the stored pollutant values. -/
theorem claim_C10 (records : List AirNowRecord) :
    ∀ s ∈ (transformFastAPIResponse records).stations,
      s.pollutants ≠ []
      ∧ ∃ q : ℚ, stationMaxAQI s = some q
          ∧ q ∈ s.pollutants.map (fun pr => pr.2.value) := by
  intro s hs
  have hs' : s ∈ (records.foldl insertRecord
      ([] : List (String × ProcessedStation))).map Prod.snd := hs
  rcases List.mem_map.mp hs' with ⟨p0, hp0, hsnd⟩
  have hne : s.pollutants ≠ [] := by
    rw [← hsnd]
    exact pollutants_ne_nil_foldl records [] (by intro q hq; cases hq) p0 hp0
  refine ⟨hne, ?_⟩
  have hmapne : s.pollutants.map (fun pr => pr.2.value) ≠ [] := by
    intro h
    exact hne (List.map_eq_nil_iff.mp h)
  cases hmax : (s.pollutants.map (fun pr => pr.2.value)).maximum with
  | bot => exact absurd (List.maximum_eq_none.mp hmax) hmapne
  | coe q => exact ⟨q, hmax, List.maximum_mem hmax⟩

/-- Witness for C10 at a concrete one-record input. -/
theorem claim_C10_witness :
    (⟨"Denver", "CO", (-105, 40), [("O3", ⟨30, "Good"⟩)]⟩ :
        ProcessedStation).pollutants ≠ []
    ∧ ∃ q : ℚ, stationMaxAQI
          ⟨"Denver", "CO", (-105, 40), [("O3", ⟨30, "Good"⟩)]⟩ = some q
        ∧ q ∈ ((⟨"Denver", "CO", (-105, 40), [("O3", ⟨30, "Good"⟩)]⟩ :
            ProcessedStation).pollutants.map (fun pr => pr.2.value)) :=
  claim_C10 [⟨"d", "t", "CO", "Denver", "O3", 30, "Good", 40, -105⟩]
    ⟨"Denver", "CO", (-105, 40), [("O3", ⟨30, "Good"⟩)]⟩
    (by
      rw [show (transformFastAPIResponse
          [⟨"d", "t", "CO", "Denver", "O3", 30, "Good", 40, -105⟩]).stations
        = [⟨"Denver", "CO", (-105, 40), [("O3", ⟨30, "Good"⟩)]⟩] from rfl]
      exact List.mem_singleton.mpr rfl)

end SpecProof
